import Mathlib

/-!
Verification development for the Twetter (tootbot) content-relay bot.

The Python sources under scrutiny are shallowly embedded here:
* `control.py` — `PostRecorder.duplicate_check` / `PostRecorder.log_post`
  (the CSV dedup ledger; a ledger is the parsed CSV file, a list of rows,
  each row a list of string fields, the header row included);
* `collect.py` — `RedditHelper.get_caption`, `save_file`, the
  `LinkedMediaHelper.get_*` media fetchers, `MediaAttachment`;
* `publish.py` — `MastodonPublisher.make_post` and its helpers
  `_post_attachments` and `_remove_posted_earlier`.

Network and filesystem effects are made explicit: HTTP downloads are a
boolean oracle (`dl url = true` means the GET returned status 200 and the
body was written), page scraping / provider APIs are oracle functions, and
the on-disk media directory is a list of existing file paths.
-/

namespace Twetter

/-! ## Ledger: control.py, class PostRecorder -/

/-- `PostRecorder.duplicate_check` (control.py lines 37-59): scan every row
of the cache CSV (header row included) and report `true` when the queried
identifier equals some field of some row.  The Python loop keeps a running
`value` flag and never breaks early; the fold mirrors that. -/
def duplicate_check (ledger : List (List String)) (identifier : String) : Bool :=
  ledger.foldl (fun value row => if identifier ∈ row then true else value) false

/-- `PostRecorder.log_post` (control.py lines 61-80): append one CSV row
`[reddit_id, date, post_url, shared_url, check_sum]`.  The timestamp is a
parameter here (the code formats the current wall-clock time). -/
def log_post (ledger : List (List String)) (reddit_id post_url shared_url check_sum : String)
    (date : String) : List (List String) :=
  ledger ++ [[reddit_id, date, post_url, shared_url, check_sum]]

/-- The header row written when the cache file is first created
(control.py lines 29-35). -/
def ledgerHeader : List String :=
  ["Reddit post ID", "Date and time", "Post link", "Media Checksum"]

/-! ## Python string helpers used by collect.py -/

/-- Python `needle in hay` on lists (contiguous sublist containment). -/
def listContains [DecidableEq α] : List α → List α → Bool
  | needle, [] => needle.isEmpty
  | needle, a :: rest => needle.isPrefixOf (a :: rest) || listContains needle rest

/-- Python `needle in hay` on strings (substring test). -/
def strContains (hay needle : String) : Bool :=
  listContains needle.toList hay.toList

/-- Python `s[i]` single-character indexing with negative-index wrap-around;
`none` models an `IndexError`. -/
def pyCharAt (s : String) (i : Int) : Option Char :=
  let j : Int := if i < 0 then i + (s.length : Int) else i
  if j < 0 then none else s.toList.get? j.toNat

/-- Truthiness of an optional Python string (`if promo_message:`):
`None` and `''` are falsy. -/
def pyStrTruthy : Option String → Bool
  | none => false
  | some s => !s.isEmpty

/-- `[x.strip() for x in s.split(',')]`. -/
def splitAndStrip (s : String) : List String :=
  (s.split (· == ',')).map String.trim

/-- Python `s.lower()`, character by character. -/
def pyLower (s : String) : String :=
  String.mk (s.toList.map Char.toLower)

/-- Python `s.split(sep)` on character lists (`''.split(sep)` is `['']`). -/
def splitOnChar (sep : Char) : List Char → List (List Char)
  | [] => [[]]
  | c :: rest =>
    let r := splitOnChar sep rest
    if c == sep then [] :: r
    else
      match r with
      | [] => [[c]]
      | h :: t => (c :: h) :: t

/-! ## Caption assembly: collect.py, RedditHelper.get_caption (lines 155-195) -/

/-- The hashtag string built by the `for tag in hashtags_for_post` loop:
`'#' + tag + ' '` appended per tag. -/
def hashtagString (tags : List String) : String :=
  tags.foldl (fun acc tag => acc ++ "#" ++ tag ++ " ") ""

/-- `RedditHelper.get_caption` (collect.py lines 155-195), faithfully
including its arithmetic:
`caption_max_length = max_len; caption_max_length -= len(shortlink) - len(hashtag_string) - len(promo_string)`
(the subtrahend is the whole difference, so hashtag and promo lengths are
effectively added), and the truncation branch indexes a single character,
`submission.title[caption_max_length - 2]`, before appending `'... '`.
`globalHashTags` is `config.bot.hash_tags`, `promoMessageConfig` is
`self.promo_message`; a `none` result models an uncaught `IndexError`. -/
def get_caption (globalHashTags : List String) (promoMessageConfig : String)
    (title shortlink : String) (maxLen : Int)
    (addHashTags : Option String) (promoMessage : Option String) : Option String :=
  let hashtagsForPost : List String :=
    match addHashTags with
    | some tags => splitAndStrip tags ++ globalHashTags
    | none => globalHashTags
  let hashtagStr := hashtagString hashtagsForPost
  let promoStr := if pyStrTruthy promoMessage then " \n \n" ++ promoMessageConfig else ""
  let captionMaxLength : Int :=
    maxLen - ((shortlink.length : Int) - (hashtagStr.length : Int) - (promoStr.length : Int))
  if (title.length : Int) < captionMaxLength then
    some (title ++ " " ++ hashtagStr ++ shortlink ++ promoStr)
  else
    (pyCharAt title (captionMaxLength - 2)).map
      (fun c => String.singleton c ++ "... " ++ hashtagStr ++ shortlink ++ promoStr)

/-- Concrete 600-character title used to exhibit the caption-budget bug. -/
def longTitle : String := String.mk (List.replicate 600 'a')

/-- Concrete 150-character hashtag used to exhibit the caption-budget bug. -/
def bigTag : String := String.mk (List.replicate 150 'x')

/-! ## URL / path helpers (urllib.parse.urlsplit + os.path, as used in collect.py) -/

/-- Suffix of `cs` after the first occurrence of `needle`, when present. -/
def afterSubstr [DecidableEq α] (needle : List α) : List α → Option (List α)
  | [] => if needle.isEmpty then some [] else none
  | a :: rest =>
    if needle.isPrefixOf (a :: rest) then some ((a :: rest).drop needle.length)
    else afterSubstr needle rest

/-- `urlsplit(url).path` for the http(s) URLs handled here: the part of the
URL after the authority and before any query or fragment. -/
def urlPath (url : String) : String :=
  let cs := url.toList
  let afterScheme :=
    match afterSubstr "://".toList cs with
    | some rest => rest.dropWhile (fun c => c ≠ '/')
    | none => cs
  String.mk (afterScheme.takeWhile (fun c => c ≠ '?' ∧ c ≠ '#'))

/-- `os.path.basename`: the final path component. -/
def pyBasename (p : String) : String :=
  String.mk ((p.toList.reverse.takeWhile (fun c => c ≠ '/')).reverse)

/-- Index of the last occurrence of `c` in `cs`, when present. -/
def lastIndexOf (c : Char) (cs : List Char) : Option Nat :=
  (List.range cs.length).foldl (fun acc i => if cs.get? i = some c then some i else acc) none

/-- `os.path.splitext(s)[1]`: the extension from the last dot of the final
path component, empty when the component has no dot or is all leading dots. -/
def splitextExt (s : String) : String :=
  let cs := s.toList
  let sepIdx : Int := match lastIndexOf '/' cs with | some i => (i : Int) | none => -1
  match lastIndexOf '.' cs with
  | none => ""
  | some d =>
    if sepIdx < (d : Int) then
      let fStart := (sepIdx + 1).toNat
      if (List.range (d - fStart)).any (fun k => cs.get? (fStart + k) != some '.') then
        String.mk (cs.drop d)
      else ""
    else ""

/-! ## Media downloads: collect.py, save_file and LinkedMediaHelper -/

/-- `save_file` (collect.py lines 36-59): stream the HTTP response body to
`file_path` and return the path, or `None` when the GET did not return 200.
`dl url = true` abstracts "`requests.get(url)` answered 200 and the body was
written". -/
def save_file (dl : String → Bool) (img_url file_path : String) : Option String :=
  if dl img_url then some file_path else none

/-- The network / provider-API effects of collect.py, made explicit:
* `dl` — HTTP GET success, as fed to `save_file`;
* `pageSources` — the `src` attributes of the `<source>` tags of the
  scraped gfycat page, `none` when `requests` raised;
* `imgurIdOf` — group 1 of the Imgur id regex, `none` when it did not match;
* `imgurAlbum` / `imgurImage` — the album-image links / the single-image
  link from the Imgur client, `none` on `ImgurClientError`;
* `gifCheck` — the verdict of `_check_imgur_gif` on a downloaded file;
* `giphyIdOf` — group 3 of the Giphy id regex, `none` when it did not match;
* `urlContentType` — the `content-type` reported by `urlopen`, `none` when
  `urlopen` raised. -/
structure MediaOracle where
  dl : String → Bool
  pageSources : String → Option (List String)
  imgurIdOf : String → Option String
  imgurAlbum : String → Option (List String)
  imgurImage : String → Option String
  gifCheck : String → Bool
  giphyIdOf : String → Option String
  urlContentType : String → Option String

/-- `LinkedMediaHelper._get_image_urls` (collect.py lines 375-397): gallery
and album links enumerate the album, other links resolve one image; an
`ImgurClientError` leaves the list empty. -/
def imgur_get_image_urls (O : MediaOracle) (img_url imgur_id : String) : List String :=
  if strContains img_url "/a/" || strContains img_url "/gallery/" then
    match O.imgurAlbum imgur_id with
    | some links => links
    | none => []
  else
    match O.imgurImage imgur_id with
    | some link => [link]
    | none => []

/-- The `.gifv`/`.mp4` → `.gif` rewrite of one Imgur image URL (collect.py
lines 350-357): the adjusted extension and URL. -/
def imgurRewrite (image_url : String) : String × String :=
  let ext0 := pyLower (splitextExt image_url)
  if ext0 == ".gifv" then (".gif", image_url.replace ".gifv" ".gif")
  else if ext0 == ".mp4" then (".gif", image_url.replace ".mp4" ".gif")
  else (ext0, image_url)

/-- One iteration of the `get_imgur_image` download loop (collect.py lines
349-368): download to `save_dir/<id>_<index><ext>` and keep the result
unless a claimed `.gif` fails the GIF check. -/
def imgurStep (O : MediaOracle) (save_dir imgur_id : String) (acc : List (Option String))
    (image_url : String) : List (Option String) :=
  let extUrl := imgurRewrite image_url
  let file_path := save_dir ++ "/" ++ imgur_id ++ "_" ++ toString acc.length ++ extUrl.1
  let current := save_file O.dl extUrl.2 file_path
  if extUrl.1 != ".gif" || O.gifCheck file_path then acc ++ [current] else acc

/-- The download loop of `get_imgur_image` (collect.py lines 347-373):
after each step the `len(imgur_paths) == max_images` check may break. -/
def imgurLoop (O : MediaOracle) (save_dir imgur_id : String) (maxImages : Nat) :
    List String → List (Option String) → List (Option String)
  | [], acc => acc
  | image_url :: rest, acc =>
    let acc2 := imgurStep O save_dir imgur_id acc image_url
    if acc2.length == maxImages then acc2 else imgurLoop O save_dir imgur_id maxImages rest acc2

/-- `LinkedMediaHelper.get_imgur_image` (collect.py lines 322-373). -/
def get_imgur_image (O : MediaOracle) (save_dir img_url : String) (maxImages : Nat) :
    List (Option String) :=
  match O.imgurIdOf img_url with
  | none => []
  | some imgur_id =>
    imgurLoop O save_dir imgur_id maxImages (imgur_get_image_urls O img_url imgur_id) []

/-- `LinkedMediaHelper.get_gfycat_image` (collect.py lines 424-458): scrape
the page, keep the last `<source>` whose src contains both "giant" and
"mp4", and fail soft (`None`) on a request error or when no tag matched. -/
def get_gfycat_image (O : MediaOracle) (save_dir img_url : String) : Option String :=
  match O.pageSources img_url with
  | none => none
  | some srcs =>
    let gfycat_name := pyBasename (urlPath img_url)
    let gfycat_url :=
      srcs.foldl (fun acc src => if strContains src "giant" && strContains src "mp4" then src else acc) ""
    let file_path := save_dir ++ "/" ++ gfycat_name ++ ".mp4"
    if gfycat_url == "" then none
    else save_file O.dl gfycat_url file_path

/-- `LinkedMediaHelper.get_reddit_image` (collect.py lines 460-485):
extensionless URLs get `.jpg` appended to name and URL. -/
def get_reddit_image (O : MediaOracle) (save_dir img_url : String) : Option String :=
  let file_name := pyBasename (urlPath img_url)
  let file_extension := pyLower (splitextExt img_url)
  let nameUrl :=
    if file_extension.isEmpty then (file_name ++ ".jpg", img_url ++ ".jpg")
    else (file_name, img_url)
  save_file O.dl nameUrl.2 (save_dir ++ "/" ++ nameUrl.1)

/-- One entry of `reddit_post.gallery_data['items']`: a numeric `id` (the
sort key used by `get_reddit_gallery`) and a `media_id` string. -/
structure GalleryItem where
  itemId : Nat
  mediaId : String
deriving DecidableEq

/-- One entry of `reddit_post.media_metadata`: the `e` tag when present,
the mime string `m`, and the source URL `s['u']`. -/
structure MediaMeta where
  e : Option String
  m : String
  sourceUrl : String

/-- `meta['m'].split('/')[1]` (the mime subtype used in the gallery
filename). -/
def mimeSubtype (m : String) : String :=
  (((splitOnChar '/' m.toList).map String.mk).get? 1).getD ""

/-- Insertion step of a stable sort on the numeric `id` field, matching
`sorted(..., key=lambda x: x['id'])`. -/
def insertById (a : GalleryItem) : List GalleryItem → List GalleryItem
  | [] => [a]
  | b :: bs => if a.itemId < b.itemId then a :: b :: bs else b :: insertById a bs

/-- Stable sort of gallery items by the `id` field. -/
def sortById (l : List GalleryItem) : List GalleryItem :=
  l.foldr insertById []

/-- The download loop of `get_reddit_gallery` (collect.py lines 500-515):
for each item declared an Image, download its source URL to
`save_dir/<media_id>.<subtype>` and append the result (which is `None` on a
failed download); stop once `max_images` entries were appended. -/
def galleryLoop (O : MediaOracle) (save_dir : String) (meta : String → MediaMeta)
    (maxImages : Nat) : List GalleryItem → List (Option String) → List (Option String)
  | [], acc => acc
  | item :: rest, acc =>
    let mm := meta item.mediaId
    if mm.e == some "Image" then
      let save_path := save_dir ++ "/" ++ item.mediaId ++ "." ++ mimeSubtype mm.m
      let acc2 := acc ++ [save_file O.dl mm.sourceUrl save_path]
      if acc2.length == maxImages then acc2 else galleryLoop O save_dir meta maxImages rest acc2
    else galleryLoop O save_dir meta maxImages rest acc

/-- `LinkedMediaHelper.get_reddit_gallery` (collect.py lines 487-515):
iterate the gallery items sorted by their `id` field. -/
def get_reddit_gallery (O : MediaOracle) (save_dir : String) (items : List GalleryItem)
    (meta : String → MediaMeta) (maxImages : Nat) : List (Option String) :=
  galleryLoop O save_dir meta maxImages (sortById items) []

/-- A PRAW `Submission`, restricted to the fields the pipeline reads.
`isGallery` models `hasattr(post, "is_gallery")`; `media` models
`post.media['reddit_video']['fallback_url']` (`none` when `post.media`
is falsy). -/
structure Submission where
  id : String
  url : String
  title : String
  shortlink : String
  isGallery : Bool
  galleryItems : List GalleryItem
  mediaMeta : String → MediaMeta
  media : Option String

/-- `LinkedMediaHelper.get_reddit_video` (collect.py lines 517-531);
`get_media` only calls it when `post.media` is truthy. -/
def get_reddit_video (O : MediaOracle) (save_dir : String) (post : Submission) : Option String :=
  match post.media with
  | none => none
  | some fallback => save_file O.dl fallback (save_dir ++ "/" ++ post.id ++ ".mp4")

/-- `LinkedMediaHelper.get_giphy_image` (collect.py lines 533-558). -/
def get_giphy_image (O : MediaOracle) (save_dir img_url : String) : Option String :=
  match O.giphyIdOf img_url with
  | none => none
  | some giphy_id =>
    save_file O.dl ("https://media.giphy.com/media/" ++ giphy_id ++ "/giphy.mp4")
      (save_dir ++ "/" ++ giphy_id ++ "giphy.mp4")

/-- The MIME allow-list of `get_generic_image`. -/
def image_formats : List String :=
  ["image/png", "image/jpeg", "image/gif", "image/webp", "video/mp4"]

/-- `LinkedMediaHelper.get_generic_image` (collect.py lines 560-594). -/
def get_generic_image (O : MediaOracle) (save_dir img_url : String) : Option String :=
  if !("http://".isPrefixOf img_url || "https://".isPrefixOf img_url) then none
  else
    match O.urlContentType img_url with
    | none => none
    | some ctype =>
      if ctype ∈ image_formats then
        save_file O.dl img_url (save_dir ++ "/" ++ pyBasename (urlPath img_url))
      else none

/-- `MediaAttachment.get_media` (collect.py lines 655-690): the provider
dispatch.  Single-asset helpers return an `Option` which is appended to the
list as-is, so a failed fetch contributes a `none` element. -/
def get_media (O : MediaOracle) (save_dir : String) (post : Submission) : List (Option String) :=
  if post.isGallery then
    get_reddit_gallery O save_dir post.galleryItems post.mediaMeta 4
  else if strContains post.url "i.redd.it" || strContains post.url "i.reddituploads.com" then
    [get_reddit_image O save_dir post.url]
  else if strContains post.url "v.redd.it" && post.media.isNone then
    []
  else if strContains post.url "v.redd.it" then
    [get_reddit_video O save_dir post]
  else if strContains post.url "imgur.com" then
    get_imgur_image O save_dir post.url 4
  else if strContains post.url "gfycat.com" then
    [get_gfycat_image O save_dir post.url]
  else if strContains post.url "giphy.com" then
    [get_giphy_image O save_dir post.url]
  else
    [get_generic_image O save_dir post.url]

/-! ## MediaAttachment: collect.py lines 597-652 -/

/-- Fuel-indexed chunking loop; each step takes one 4096-byte block.  The
fuel only serves structural recursion: `readChunks` passes the list's
length, which is ample since every step drops at least one byte. -/
def readChunksFuel : Nat → List Nat → List (List Nat)
  | _, [] => []
  | 0, _ :: _ => []
  | fuel + 1, b :: bs => ((b :: bs).take 4096) :: readChunksFuel fuel ((b :: bs).drop 4096)

/-- The `iter(lambda: media_file.read(4096), b"")` loop: the file's bytes as
the sequence of 4096-byte blocks the code feeds to the hash object. -/
def readChunks (bs : List Nat) : List (List Nat) :=
  readChunksFuel bs.length bs

/-- The digest computed by the `sha256.update(byte_block)` loop: a hashlib
object accumulates every update, so the hex digest is the hash function `H`
applied to the concatenation of the blocks read.  `H` abstracts the SHA-256
compression itself. -/
def sha256hexdigest (H : List Nat → String) (bytes : List Nat) : String :=
  H ((readChunks bytes).foldl (fun acc block => acc ++ block) [])

/-- Python dict assignment `d[k] = v`: overwrite in place when the key
exists, else append. -/
def dictInsert (mp : List (String × String)) (k v : String) : List (String × String) :=
  if (mp.lookup k).isSome then mp.map (fun kv => if kv.1 == k then (k, v) else kv)
  else mp ++ [(k, v)]

/-- The construction loop of `MediaAttachment.__init__` (collect.py lines
603-620): walk the fetched paths, skip `None` entries, hash each file's
bytes in 4096-byte blocks and record `checksum → path`.  `fsys` is the
media directory (`none` = the file is missing, in which case
`open(media_path, 'rb')` raises and the whole construction aborts, modelled
by the `none` result). -/
def mediaAttachmentInit (H : List Nat → String) (fsys : String → Option (List Nat)) :
    List (Option String) → List (String × String) → Option (List (String × String))
  | [], mp => some mp
  | none :: rest, mp => mediaAttachmentInit H fsys rest mp
  | some path :: rest, mp =>
    match fsys path with
    | none => none
    | some content =>
      mediaAttachmentInit H fsys rest (dictInsert mp (sha256hexdigest H content) path)

/-- Python `d.pop(k)` on a dict keyed by checksum. -/
def popKey (mp : List (String × Option String)) (k : String) : List (String × Option String) :=
  mp.filter (fun kv => kv.1 != k)

/-- `MediaAttachment.destroy_one_attachment` (collect.py lines 638-652),
with the media directory `fs` explicit.  `os.remove` raises `OSError` when
the path is missing; the `except OSError` clause only logs, but since the
`pop` sits after `os.remove` inside the `try`, a failed delete leaves the
entry in the mapping.  A missing checksum key would raise an uncaught
`KeyError`, modelled by the `none` result. -/
def destroy_one_attachment (mp : List (String × Option String)) (fs : List String)
    (checksum : String) : Option (List (String × Option String) × List String) :=
  match mp.lookup checksum with
  | none => none
  | some none => some (popKey mp checksum, fs)
  | some (some media_path) =>
    if media_path ∈ fs then some (popKey mp checksum, fs.erase media_path)
    else some (mp, fs)

/-- The deletion loop of `MediaAttachment.destroy` (collect.py lines
622-636): the `try` wraps the whole loop, so the first `OSError` abandons
the remaining deletions (the mapping is cleared regardless). -/
def destroyFiles : List (String × Option String) → List String → List String
  | [], fs => fs
  | (_, none) :: rest, fs => destroyFiles rest fs
  | (_, some p) :: rest, fs => if p ∈ fs then destroyFiles rest (fs.erase p) else fs

/-! ## MastodonPublisher.make_post: publish.py lines 79-240 -/

/-- The value paths of a `media_paths` mapping (the files on disk after a
`MediaAttachment` construction). -/
def attachmentPaths (mp : List (String × Option String)) : List String :=
  mp.filterMap (fun kv => kv.2)

/-- The observable calls `make_post` makes, in order: a `MediaAttachment`
construction (the media fetch), a `mastodon.media_post` upload, a
`mastodon.status_post` publish (with the promo message passed to the
caption, if any), and an `attachments.destroy()` cleanup. -/
inductive PubEvent where
  | fetch (postId : String)
  | upload (postId checksum : String)
  | publish (postId : String) (promo : Option String)
  | cleanup (postId : String)
deriving DecidableEq

/-- The mutable state `make_post` reads and writes: the cache-file ledger,
`self.num_non_promo_posts`, `mastodon_config.number_of_errors`, the media
directory, and the trace of outbound calls. -/
structure MPState where
  ledger : List (List String)
  numNonPromo : Int
  numberOfErrors : Nat
  fs : List String
  events : List PubEvent

/-- Configuration and collaborators of `MastodonPublisher.make_post`:
`attachmentsOf post` is the `media_paths` mapping of
`MediaAttachment(post, ...)` (its construction is embedded separately as
`mediaAttachmentInit`); `publishOutcome post` is what
`mastodon.status_post` does — `ok` with the toot URL or `error` with the
`MastodonError` text.  Caption assembly is embedded separately as
`get_caption`. -/
structure PublishEnv where
  mediaOnly : Bool
  promoEvery : Int
  promoMessage : String
  date : String
  attachmentsOf : Submission → List (String × Option String)
  publishOutcome : Submission → Except String String

/-- publish.py lines 129-132 combined with the `+= 1` of line 161: the
promo message selected for this toot and the value of
`num_non_promo_posts` after the `if` (before the post-success increment).
The guard is the chained comparison
`self.num_non_promo_posts >= self.promo.every > 0`. -/
def promoSelect (every : Int) (message : String) (n : Int) : Option String × Int :=
  if n ≥ every ∧ every > 0 then (some message, -1) else (none, n)

/-- `MastodonPublisher._post_attachments` (publish.py lines 195-216): upload
every attachment and append a ledger row `(post_id, '', media_path,
checksum)` per upload. -/
def postAttachments (date postId : String) (ledger : List (List String))
    (events : List PubEvent) (mp : List (String × Option String)) :
    List (List String) × List PubEvent :=
  mp.foldl
    (fun acc kv =>
      (log_post acc.1 postId "" (kv.2.getD "") kv.1 date,
       acc.2 ++ [PubEvent.upload postId kv.1]))
    (ledger, events)

/-- `MastodonPublisher._remove_posted_earlier` (publish.py lines 218-240):
collect the checksums whose path is `None` or already in the ledger, then
drop each via `destroy_one_attachment`.  The checksums are drawn from the
mapping's own keys, so the `KeyError` case of `destroy_one_attachment`
cannot fire; it is mapped to a no-op here. -/
def removePostedEarlier (ledger : List (List String)) (mp : List (String × Option String))
    (fs : List String) : List (String × Option String) × List String :=
  let checksums := mp.filterMap (fun kv =>
    match kv.2 with
    | none => some kv.1
    | some _ => if duplicate_check ledger kv.1 then some kv.1 else none)
  checksums.foldl
    (fun st c =>
      match destroy_one_attachment st.1 st.2 c with
      | some r => r
      | none => st)
    (mp, fs)

/-- The attachment mapping and media directory after constructing the
`MediaAttachment` (which writes the files to disk) and running
`_remove_posted_earlier` (publish.py lines 102-108). -/
def attachmentsAfterRemoval (env : PublishEnv) (st : MPState) (post : Submission) :
    List (String × Option String) × List String :=
  removePostedEarlier st.ledger (env.attachmentsOf post)
    (st.fs ++ attachmentPaths (env.attachmentsOf post))

/-- The guard of publish.py line 110: there were attachments and all of
them were removed as already posted. -/
def skipAllDuplicates (env : PublishEnv) (st : MPState) (post : Submission) : Bool :=
  decide (0 < (env.attachmentsOf post).length)
    && ((attachmentsAfterRemoval env st post).1.length == 0)

/-- The media-only policy guard of publish.py lines 123-124. -/
def mediaPolicyAllows (env : PublishEnv) (st : MPState) (post : Submission) : Bool :=
  (env.mediaOnly && decide (0 < (attachmentsAfterRemoval env st post).1.length))
    || !env.mediaOnly

/-- The body of `make_post`'s inner loop for one post (publish.py lines
94-193).  Returns the updated state and whether `break_to_mainloop` was set:
* duplicate id or URL → log only, continue the scan;
* all attachments already posted → ledger skip row, continue the scan;
* media policy allows → promo selection, uploads, `status_post` (success
  row + counter increment + error-count reset, or error row + error count),
  cleanup, stop the scan;
* otherwise → non-media skip row, cleanup, stop the scan. -/
def processPost (env : PublishEnv) (st : MPState) (post : Submission) : MPState × Bool :=
  if duplicate_check st.ledger post.id || duplicate_check st.ledger post.url then
    (st, false)
  else
    let ev0 := st.events ++ [PubEvent.fetch post.id]
    let mp1 := (attachmentsAfterRemoval env st post).1
    let fs1 := (attachmentsAfterRemoval env st post).2
    if skipAllDuplicates env st post then
      ({ st with
          ledger := log_post st.ledger post.id
            "Mastodon: Skipped because all images have already been posted" "" "" env.date,
          fs := fs1, events := ev0 }, false)
    else if mediaPolicyAllows env st post then
      let pr := promoSelect env.promoEvery env.promoMessage st.numNonPromo
      let up :=
        if 0 < mp1.length then postAttachments env.date post.id st.ledger ev0 mp1
        else (st.ledger, ev0)
      match env.publishOutcome post with
      | Except.ok tootUrl =>
        ({ ledger := log_post up.1 post.id tootUrl post.url "" env.date,
           numNonPromo := pr.2 + 1,
           numberOfErrors := 0,
           fs := destroyFiles mp1 fs1,
           events := up.2 ++ [PubEvent.publish post.id pr.1, PubEvent.cleanup post.id] }, true)
      | Except.error e =>
        ({ ledger := log_post up.1 post.id ("Error while posting toot: " ++ e) "" "" env.date,
           numNonPromo := pr.2,
           numberOfErrors := st.numberOfErrors + 1,
           fs := destroyFiles mp1 fs1,
           events := up.2 ++ [PubEvent.cleanup post.id] }, true)
    else
      ({ st with
          ledger := log_post st.ledger post.id
            "Skipping, non-media posts disabled or media file not found" "" "" env.date,
          fs := destroyFiles mp1 fs1,
          events := ev0 ++ [PubEvent.cleanup post.id] }, true)

/-- The inner `for post in source_posts` loop of `make_post`. -/
def make_post_inner (env : PublishEnv) (st : MPState) : List Submission → MPState × Bool
  | [] => (st, false)
  | post :: rest =>
    let r := processPost env st post
    if r.2 then (r.1, true) else make_post_inner env r.1 rest

/-- `MastodonPublisher.make_post` (publish.py lines 79-193): iterate the
`{additional_hashtags: source_posts}` groups; `break_to_mainloop` stops the
outer loop at the top of its next iteration, i.e. immediately after the
inner loop that set it. -/
def make_post (env : PublishEnv) (st : MPState) : List (String × List Submission) → MPState
  | [] => st
  | (_, sourcePosts) :: rest =>
    let r := make_post_inner env st sourcePosts
    if r.2 then r.1 else make_post env r.1 rest

/-- Recognizer for `status_post` calls in the event trace. -/
def isPublishEvent : PubEvent → Bool
  | PubEvent.publish _ _ => true
  | _ => false

/-- Number of `status_post` calls in a trace. -/
def publishCount (events : List PubEvent) : Nat :=
  events.countP isPublishEvent

/-- The promo messages of the `status_post` calls of a trace, in order. -/
def publishedPromos (events : List PubEvent) : List (Option String) :=
  events.filterMap (fun e =>
    match e with
    | PubEvent.publish _ promo => some promo
    | _ => none)

/-! ## The spec's reading of the gallery order -/

/-- Insertion step of a stable sort on the `media_id` string. -/
def insertByMediaId (a : GalleryItem) : List GalleryItem → List GalleryItem
  | [] => [a]
  | b :: bs => if a.mediaId.toList < b.mediaId.toList then a :: b :: bs else b :: insertByMediaId a bs

/-- Stable sort of gallery items by `media_id`. -/
def sortByMediaId (l : List GalleryItem) : List GalleryItem :=
  l.foldr insertByMediaId []

/-- Modelled from the spec: the gallery fetch as the spec words it — take
the gallery items in media_id-sorted order, keep those whose declared type
is Image, download the first `maxImages` of them.  To be compared with
`get_reddit_gallery`, which sorts by the numeric `id` field instead. -/
def specGalleryMediaIdOrder (O : MediaOracle) (save_dir : String) (items : List GalleryItem)
    (meta : String → MediaMeta) (maxImages : Nat) : List (Option String) :=
  (((sortByMediaId items).filter
      (fun it => (meta it.mediaId).e == some "Image")).take maxImages).map
    (fun it => save_file O.dl (meta it.mediaId).sourceUrl
      (save_dir ++ "/" ++ it.mediaId ++ "." ++ mimeSubtype (meta it.mediaId).m))

/-! ## Concrete inputs used by the witnesses and counterexamples -/

/-- A metadata table answering every media id with an empty record. -/
def trivialMeta : MediaMeta := { e := none, m := "", sourceUrl := "" }

/-- A submission with the given id and URL and no media payload. -/
def mkSub (id url : String) : Submission :=
  { id := id, url := url, title := "", shortlink := "", isGallery := false,
    galleryItems := [], mediaMeta := fun _ => trivialMeta, media := none }

/-- A fresh `make_post` state over a just-created cache file. -/
def initState : MPState :=
  { ledger := [ledgerHeader], numNonPromo := 0, numberOfErrors := 0, fs := [], events := [] }

/-- Environment for exercising the duplicate-skip branch. -/
def envC1 : PublishEnv :=
  { mediaOnly := false, promoEvery := 0, promoMessage := "", date := "01/01/2026 00:00:00",
    attachmentsOf := fun _ => [], publishOutcome := fun _ => Except.ok "https://m.example/1" }

/-- A state whose ledger already records the id `dup1`. -/
def stC1 : MPState :=
  { ledger := [ledgerHeader, ["dup1", "01/01/2026 00:00:00", "https://m.example/0", "u0", ""]],
    numNonPromo := 0, numberOfErrors := 0, fs := [], events := [] }

/-- Promo-cadence environment: `promo_every = 3`, empty attachments, every
`status_post` succeeds. -/
def envC7 : PublishEnv :=
  { mediaOnly := false, promoEvery := 3, promoMessage := "PROMO", date := "01/01/2026 00:00:00",
    attachmentsOf := fun _ => [],
    publishOutcome := fun p => Except.ok ("https://m.example/" ++ p.id) }

/-- Three successive polling cycles, each publishing one fresh post. -/
def c7run : MPState :=
  make_post envC7
    (make_post envC7
      (make_post envC7 initState [("", [mkSub "a1" "ua1"])])
      [("", [mkSub "a2" "ua2"])])
    [("", [mkSub "a3" "ua3"])]

/-- A fourth cycle on top of `c7run`. -/
def c7run4 : MPState := make_post envC7 c7run [("", [mkSub "a4" "ua4"])]

/-- Environment where post `p1` carries one attachment with checksum `ck1`
and every other post has none. -/
def envC9 : PublishEnv :=
  { mediaOnly := false, promoEvery := 0, promoMessage := "", date := "02/01/2026 00:00:00",
    attachmentsOf := fun p => if p.id == "p1" then [("ck1", some "file1")] else [],
    publishOutcome := fun p => Except.ok ("https://m.example/" ++ p.id) }

/-- A state whose ledger already records the checksum `ck1` (published
under an older post), but neither `p1` nor `p2`. -/
def c9state : MPState :=
  { ledger := [ledgerHeader,
               ["old", "01/01/2026 00:00:00", "https://m.example/old", "uold", "ck1"]],
    numNonPromo := 0, numberOfErrors := 0, fs := [], events := [] }

/-- One source with two fresh posts: `p1` (attachments all already posted)
followed by `p2`. -/
def c9posts : List (String × List Submission) :=
  [("", [mkSub "p1" "up1", mkSub "p2" "up2"])]

/-- The cycle on those posts. -/
def c9run : MPState := make_post envC9 c9state c9posts

/-- An oracle where every network interaction fails. -/
def failOracle : MediaOracle :=
  { dl := fun _ => false, pageSources := fun _ => none, imgurIdOf := fun _ => none,
    imgurAlbum := fun _ => none, imgurImage := fun _ => none, gifCheck := fun _ => false,
    giphyIdOf := fun _ => none, urlContentType := fun _ => none }

/-- A gfycat-linked post. -/
def gfyPost : Submission := mkSub "g1" "https://gfycat.com/somecat"

/-- An oracle where every download succeeds (and the other interactions
fail, which the exercised branches never consult). -/
def allOkOracle : MediaOracle :=
  { dl := fun _ => true, pageSources := fun _ => none, imgurIdOf := fun _ => none,
    imgurAlbum := fun _ => none, imgurImage := fun _ => none, gifCheck := fun _ => true,
    giphyIdOf := fun _ => none, urlContentType := fun _ => none }

/-- A reddit-hosted image post. -/
def reddItPost : Submission := mkSub "r1" "https://i.redd.it/pic.jpg"

/-- Ten eligible gallery items whose `id` order is the reverse of their
`media_id` order. -/
def c8items : List GalleryItem :=
  [⟨0, "j"⟩, ⟨1, "i"⟩, ⟨2, "h"⟩, ⟨3, "g"⟩, ⟨4, "f"⟩,
   ⟨5, "e"⟩, ⟨6, "d"⟩, ⟨7, "c"⟩, ⟨8, "b"⟩, ⟨9, "a"⟩]

/-- Gallery metadata: every media id is a JPEG image. -/
def c8meta : String → MediaMeta := fun mid =>
  { e := some "Image", m := "image/jpg", sourceUrl := "https://i.redd.it/" ++ mid ++ ".jpg" }

/-- A toy hash function for exercising `mediaAttachmentInit`. -/
def witnessHash : List Nat → String := fun bs => "h" ++ toString bs.length

/-- A media directory holding one three-byte file. -/
def witnessFsys : String → Option (List Nat) := fun p =>
  if p == "media/w.jpg" then some [1, 2, 3] else none

/-! ## Theorems -/

set_option maxRecDepth 16000

/-- The scanning fold of `duplicate_check` is membership of the identifier
in some row. -/
theorem duplicate_check_eq_any (ledger : List (List String)) (identifier : String) :
    duplicate_check ledger identifier
      = ledger.any (fun row => decide (identifier ∈ row)) := by
  have aux : ∀ (l : List (List String)) (b : Bool),
      l.foldl (fun value row => if identifier ∈ row then true else value) b
        = (b || l.any (fun row => decide (identifier ∈ row))) := by
    intro l
    induction l with
    | nil => intro b; simp
    | cons row rest ih =>
      intro b
      simp only [List.foldl_cons, List.any_cons]
      rw [ih]
      by_cases h : identifier ∈ row
      · simp [h]
      · simp [h]
  simpa [duplicate_check] using aux ledger false

/-- Claim C2: for every identifier and ledger file state,
`duplicate_check identifier` returns true exactly when the identifier
equals some field value of some row of the ledger CSV (any column, any
row, the header row included) — a field-agnostic containment check, not a
key lookup. -/
theorem duplicate_check_field_agnostic (ledger : List (List String)) (identifier : String) :
    duplicate_check ledger identifier = true ↔ ∃ row ∈ ledger, identifier ∈ row := by
  rw [duplicate_check_eq_any]
  simp [List.any_eq_true]

/-- `duplicate_check_field_agnostic` at the header row: even a header
field value is reported as a duplicate. -/
theorem duplicate_check_field_agnostic_witness :
    duplicate_check [ledgerHeader] "Post link" = true :=
  (duplicate_check_field_agnostic [ledgerHeader] "Post link").2
    ⟨ledgerHeader, by decide, by decide⟩

/-- Claim C10: after a ledger entry is appended with an empty-string field
(as every skipped or errored outcome does — `log_post` is then called with
`''` for the shared URL and/or checksum), `duplicate_check('')` returns
true, and it stays true under any further appends. -/
theorem log_post_empty_field_dup (ledger : List (List String))
    (reddit_id post_url shared_url check_sum date : String) (rest : List (List String))
    (h : reddit_id = "" ∨ date = "" ∨ post_url = "" ∨ shared_url = "" ∨ check_sum = "") :
    duplicate_check (log_post ledger reddit_id post_url shared_url check_sum date ++ rest) ""
      = true := by
  rw [duplicate_check_eq_any, List.any_eq_true]
  refine ⟨[reddit_id, date, post_url, shared_url, check_sum], ?_, ?_⟩
  · simp [log_post]
  · rcases h with h | h | h | h | h <;> simp [h]

/-- `log_post_empty_field_dup` at the skip row `make_post` writes for a
fully-duplicate post (publish.py lines 113-117). -/
theorem log_post_empty_field_dup_witness :
    duplicate_check
      (log_post [ledgerHeader] "abc"
        "Mastodon: Skipped because all images have already been posted" "" ""
        "01/01/2026 00:00:00" ++ []) "" = true :=
  log_post_empty_field_dup [ledgerHeader] "abc"
    "Mastodon: Skipped because all images have already been posted" "" ""
    "01/01/2026 00:00:00" [] (Or.inr (Or.inr (Or.inr (Or.inl rfl))))

/-- Claim C3 (code bug): `get_caption` is supposed to keep the caption
within `max_len` (500 for Mastodon), but the budget arithmetic subtracts
`len(shortlink) - len(hashtag_string) - len(promo_string)` as a whole, so
hashtag and promo lengths are added to the budget instead of reserved:
with a 150-character hashtag, a 600-character title passes the check and
the caption comes out 768 characters long, over the 500 budget. -/
theorem get_caption_exceeds_budget :
    (get_caption [bigTag] "" longTitle "https://redd.it" 500 none none).map String.length
      = some 768 ∧ 500 < 768 := by
  constructor
  · decide
  · decide

/-- Claim C4, counterexample: when `os.remove` fails (here: the file is
absent from the media directory), `destroy_one_attachment` leaves the
checksum entry in `media_paths` — the `pop` sits after `os.remove` inside
the `try`, so the claim that the entry is still removed is false. -/
theorem destroy_one_keeps_entry_on_oserror :
    destroy_one_attachment [("c1", some "f1")] [] "c1"
      = some ([("c1", some "f1")], []) := by decide

/-- Claim C4, amended: for every tracked checksum the call returns normally
(the OSError is only logged, never raised), but on a failed deletion the
checksum entry remains in the mapping; it is removed only when the
deletion succeeds or the stored path is `None`. -/
theorem destroy_one_logged_not_fatal (mp : List (String × Option String)) (fs : List String)
    (c : String) (v : Option String) (h : mp.lookup c = some v) :
    (destroy_one_attachment mp fs c).isSome = true ∧
      (∀ path, v = some path → path ∉ fs →
        destroy_one_attachment mp fs c = some (mp, fs)) := by
  unfold destroy_one_attachment
  rw [h]
  cases v with
  | none => exact ⟨rfl, fun path hv => nomatch hv⟩
  | some p =>
    by_cases hp : p ∈ fs
    · refine ⟨by simp [hp], ?_⟩
      intro path hv hnot
      cases hv
      exact absurd hp hnot
    · refine ⟨by simp [hp], ?_⟩
      intro path hv hnot
      simp [hp]

/-- `destroy_one_logged_not_fatal` at a mapping holding checksum `c2` for a
file `g` missing from the media directory. -/
theorem destroy_one_logged_not_fatal_witness :
    (destroy_one_attachment [("c2", some "g")] [] "c2").isSome = true ∧
      destroy_one_attachment [("c2", some "g")] [] "c2" = some ([("c2", some "g")], []) := by
  have h := destroy_one_logged_not_fatal [("c2", some "g")] [] "c2" (some "g") rfl
  exact ⟨h.1, h.2 "g" rfl (by decide)⟩

/-- Claim C1: a post whose id or raw URL is already in the ledger when its
turn comes is skipped whole by `make_post`'s per-post body: no
`MediaAttachment` construction (no media fetch), no upload, no
`status_post`, and no ledger row — the state is returned untouched. -/
theorem duplicate_post_skipped (env : PublishEnv) (st : MPState) (post : Submission)
    (h : duplicate_check st.ledger post.id = true ∨ duplicate_check st.ledger post.url = true) :
    (processPost env st post).1.events = st.events ∧
      (processPost env st post).1.ledger = st.ledger ∧
      (processPost env st post).2 = false := by
  have hcond : (duplicate_check st.ledger post.id || duplicate_check st.ledger post.url) = true := by
    rcases h with h | h <;> simp [h]
  simp [processPost, hcond]

/-- `duplicate_post_skipped` at a ledger already holding the id `dup1`. -/
theorem duplicate_post_skipped_witness :
    (processPost envC1 stC1 (mkSub "dup1" "udup")).1.events = stC1.events ∧
      (processPost envC1 stC1 (mkSub "dup1" "udup")).1.ledger = stC1.ledger ∧
      (processPost envC1 stC1 (mkSub "dup1" "udup")).2 = false :=
  duplicate_post_skipped envC1 stC1 (mkSub "dup1" "udup") (Or.inl (by decide))

/-- Claim C5, counterexample: a gfycat post whose page scrape fails makes
`get_media` return `[None]` — a null element, not an empty contribution.
(`MediaAttachment.__init__` and `_remove_posted_earlier` filter these
`None` entries downstream.) -/
theorem get_media_null_entry :
    get_media failOracle "media" gfyPost = [none] := by decide

/-- Claim C7, counterexample: with `promo_every = 3` and the counter at 0,
the 3rd successfully published post — the one that makes the counter reach
3 — carries no promo suffix; the promo rides the 4th post, after which the
counter is 0. -/
theorem promo_on_fourth_not_third :
    publishedPromos c7run.events = [none, none, none] ∧ c7run.numNonPromo = 3 ∧
      publishedPromos c7run4.events = [none, none, none, some "PROMO"] ∧
      c7run4.numNonPromo = 0 := by decide

/-- Claim C9, counterexample: post `p1` is not in the ledger (neither id
nor URL), so it is the first non-duplicate post of the cycle and gets
processed (its `MediaAttachment` is constructed), yet because all of its
attachments had been posted earlier the scan continues and the later post
`p2` is published in the same `make_post` invocation — the scan does not
stop at the first non-duplicate post. -/
theorem scan_continues_after_skipped_post :
    duplicate_check c9state.ledger "p1" = false ∧
      duplicate_check c9state.ledger "up1" = false ∧
      PubEvent.fetch "p1" ∈ c9run.events ∧
      PubEvent.publish "p2" none ∈ c9run.events := by decide

/-- A `save_file` call only returns a path when the download succeeded,
and the returned path is the destination path. -/
theorem save_file_eq_some {dl : String → Bool} {u fp p : String}
    (h : save_file dl u fp = some p) : dl u = true ∧ p = fp := by
  by_cases hd : dl u = true
  · unfold save_file at h
    rw [if_pos hd] at h
    exact ⟨hd, (Option.some.inj h).symm⟩
  · unfold save_file at h
    rw [if_neg hd] at h
    cases h

/-- An `Option String` that, when it holds a path, holds the path of a
file a successful `save_file` download wrote. -/
def Downloaded (dl : String → Bool) (o : Option String) : Prop :=
  ∀ p : String, o = some p → ∃ url, dl url = true ∧ save_file dl url p = some p

theorem downloaded_none (dl : String → Bool) : Downloaded dl none :=
  fun _ h => nomatch h

theorem downloaded_save_file (dl : String → Bool) (u fp : String) :
    Downloaded dl (save_file dl u fp) := by
  intro p hp
  rcases save_file_eq_some hp with ⟨hd, rfl⟩
  exact ⟨u, hd, by simp [save_file, hd]⟩

theorem downloaded_append {dl : String → Bool} {acc : List (Option String)}
    {x : Option String} (hacc : ∀ o ∈ acc, Downloaded dl o) (hx : Downloaded dl x) :
    ∀ o ∈ acc ++ [x], Downloaded dl o := by
  intro o ho
  rcases List.mem_append.1 ho with ho | ho
  · exact hacc o ho
  · rw [List.mem_singleton.1 ho]
    exact hx

/-- Every element the gallery download loop adds is a `save_file` result. -/
theorem galleryLoop_downloaded (O : MediaOracle) (sd : String) (meta : String → MediaMeta)
    (mx : Nat) :
    ∀ (l : List GalleryItem) (acc : List (Option String)),
      (∀ o ∈ acc, Downloaded O.dl o) →
      ∀ o ∈ galleryLoop O sd meta mx l acc, Downloaded O.dl o := by
  intro l
  induction l with
  | nil =>
    intro acc hacc o ho
    exact hacc o (by simpa [galleryLoop] using ho)
  | cons item rest ih =>
    intro acc hacc o ho
    simp only [galleryLoop] at ho
    split at ho
    · split at ho
      · exact downloaded_append hacc (downloaded_save_file _ _ _) o ho
      · exact ih _ (downloaded_append hacc (downloaded_save_file _ _ _)) o ho
    · exact ih acc hacc o ho

/-- One Imgur download step only adds a `save_file` result. -/
theorem imgurStep_downloaded (O : MediaOracle) (sd iid : String)
    {acc : List (Option String)} (hacc : ∀ o ∈ acc, Downloaded O.dl o) (image_url : String) :
    ∀ o ∈ imgurStep O sd iid acc image_url, Downloaded O.dl o := by
  intro o ho
  simp only [imgurStep] at ho
  split at ho
  · exact downloaded_append hacc (downloaded_save_file _ _ _) o ho
  · exact hacc o ho

/-- Every element the Imgur download loop adds is a `save_file` result. -/
theorem imgurLoop_downloaded (O : MediaOracle) (sd iid : String) (mx : Nat) :
    ∀ (l : List String) (acc : List (Option String)),
      (∀ o ∈ acc, Downloaded O.dl o) →
      ∀ o ∈ imgurLoop O sd iid mx l acc, Downloaded O.dl o := by
  intro l
  induction l with
  | nil =>
    intro acc hacc o ho
    exact hacc o (by simpa [imgurLoop] using ho)
  | cons image_url rest ih =>
    intro acc hacc o ho
    simp only [imgurLoop] at ho
    split at ho
    · exact imgurStep_downloaded O sd iid hacc image_url o ho
    · exact ih _ (imgurStep_downloaded O sd iid hacc image_url) o ho

theorem downloaded_gfycat (O : MediaOracle) (sd u : String) :
    Downloaded O.dl (get_gfycat_image O sd u) := by
  intro p hp
  cases hps : O.pageSources u with
  | none => simp [get_gfycat_image, hps] at hp
  | some srcs =>
    simp only [get_gfycat_image, hps] at hp
    split at hp
    · cases hp
    · exact downloaded_save_file O.dl _ _ p hp

theorem downloaded_reddit_image (O : MediaOracle) (sd u : String) :
    Downloaded O.dl (get_reddit_image O sd u) := by
  intro p hp
  simp only [get_reddit_image] at hp
  exact downloaded_save_file O.dl _ _ p hp

theorem downloaded_reddit_video (O : MediaOracle) (sd : String) (post : Submission) :
    Downloaded O.dl (get_reddit_video O sd post) := by
  intro p hp
  cases hm : post.media with
  | none => simp [get_reddit_video, hm] at hp
  | some fallback =>
    simp only [get_reddit_video, hm] at hp
    exact downloaded_save_file O.dl _ _ p hp

theorem downloaded_giphy (O : MediaOracle) (sd u : String) :
    Downloaded O.dl (get_giphy_image O sd u) := by
  intro p hp
  cases hg : O.giphyIdOf u with
  | none => simp [get_giphy_image, hg] at hp
  | some gid =>
    simp only [get_giphy_image, hg] at hp
    exact downloaded_save_file O.dl _ _ p hp

theorem downloaded_generic (O : MediaOracle) (sd u : String) :
    Downloaded O.dl (get_generic_image O sd u) := by
  intro p hp
  unfold get_generic_image at hp
  by_cases hpre : (!("http://".isPrefixOf u || "https://".isPrefixOf u)) = true
  · rw [if_pos hpre] at hp
    cases hp
  · rw [if_neg hpre] at hp
    cases hct : O.urlContentType u with
    | none => simp only [hct] at hp; cases hp
    | some ctype =>
      simp only [hct] at hp
      by_cases hin : ctype ∈ image_formats
      · rw [if_pos hin] at hp
        exact downloaded_save_file O.dl _ _ p hp
      · rw [if_neg hin] at hp
        cases hp

/-- Claim C5, amended: every string entry of the media-fetch dispatch is
the path of a successfully downloaded file (a `save_file` success); fetch
failures contribute `none` elements (for the `Option`-returning helpers)
or nothing, never a crash — but `none` entries do occur, see
`get_media_null_entry`. -/
theorem get_media_entries_downloaded (O : MediaOracle) (saveDir : String) (post : Submission)
    (p : String) (h : some p ∈ get_media O saveDir post) :
    ∃ url, O.dl url = true ∧ save_file O.dl url p = some p := by
  unfold get_media at h
  split at h
  · exact galleryLoop_downloaded O saveDir post.mediaMeta 4 (sortById post.galleryItems) []
      (by intro o ho; cases ho) (some p) (by simpa [get_reddit_gallery] using h) p rfl
  · split at h
    · exact downloaded_reddit_image O saveDir post.url p (List.mem_singleton.1 h).symm
    · split at h
      · cases List.not_mem_nil _ h
      · split at h
        · exact downloaded_reddit_video O saveDir post p (List.mem_singleton.1 h).symm
        · split at h
          · unfold get_imgur_image at h
            split at h
            · cases List.not_mem_nil _ h
            · exact imgurLoop_downloaded O saveDir _ 4 _ []
                (by intro o ho; cases ho) (some p) h p rfl
          · split at h
            · exact downloaded_gfycat O saveDir post.url p (List.mem_singleton.1 h).symm
            · split at h
              · exact downloaded_giphy O saveDir post.url p (List.mem_singleton.1 h).symm
              · exact downloaded_generic O saveDir post.url p (List.mem_singleton.1 h).symm

/-- `get_media_entries_downloaded` on a reddit-hosted image whose download
succeeds. -/
theorem get_media_entries_downloaded_witness :
    ∃ url, allOkOracle.dl url = true ∧
      save_file allOkOracle.dl url "media/pic.jpg" = some "media/pic.jpg" :=
  get_media_entries_downloaded allOkOracle "media" reddItPost "media/pic.jpg" (by decide)

/-- Fold of list concatenation over an accumulator. -/
theorem foldl_append_acc (l : List (List Nat)) :
    ∀ acc : List Nat,
      l.foldl (fun a b => a ++ b) acc = acc ++ l.foldl (fun a b => a ++ b) [] := by
  induction l with
  | nil => intro acc; simp
  | cons x xs ih =>
    intro acc
    simp only [List.foldl_cons]
    rw [ih (acc ++ x), ih ([] ++ x)]
    simp

/-- Concatenating the 4096-byte blocks the read loop produced gives back
the file's bytes: the streamed digest is a digest of the full contents. -/
theorem readChunksFuel_join :
    ∀ (fuel : Nat) (bs : List Nat), bs.length ≤ fuel →
      (readChunksFuel fuel bs).foldl (fun a b => a ++ b) [] = bs := by
  intro fuel
  induction fuel with
  | zero =>
    intro bs h
    cases bs with
    | nil => simp [readChunksFuel]
    | cons b rest => simp at h
  | succ n ih =>
    intro bs h
    cases bs with
    | nil => simp [readChunksFuel]
    | cons b rest =>
      simp only [readChunksFuel, List.foldl_cons]
      rw [foldl_append_acc, ih]
      · simp
      · have hd : ((b :: rest).drop 4096).length = (b :: rest).length - 4096 :=
          List.length_drop _ _
        simp only [hd, List.length_cons]
        simp only [List.length_cons] at h
        omega

theorem readChunks_join (bs : List Nat) :
    (readChunks bs).foldl (fun a b => a ++ b) [] = bs :=
  readChunksFuel_join bs.length bs le_rfl

/-- Elements of a Python dict after `d[k] = v`: an old entry or `(k, v)`. -/
theorem dictInsert_mem {mp : List (String × String)} {k v : String} {kv : String × String}
    (h : kv ∈ dictInsert mp k v) : kv ∈ mp ∨ kv = (k, v) := by
  unfold dictInsert at h
  split at h
  · rcases List.mem_map.1 h with ⟨kv0, hmem, heq⟩
    by_cases hk : (kv0.1 == k) = true
    · rw [if_pos hk] at heq
      exact Or.inr heq.symm
    · rw [if_neg hk] at heq
      exact Or.inl (heq ▸ hmem)
  · rcases List.mem_append.1 h with h1 | h1
    · exact Or.inl h1
    · exact Or.inr (List.mem_singleton.1 h1)

/-- The construction loop's invariant: every entry of the produced mapping
is an initial entry or records a fetched path with the digest of its
bytes. -/
theorem mediaAttachmentInit_mem (H : List Nat → String) (fsys : String → Option (List Nat)) :
    ∀ (fetched : List (Option String)) (mp0 mp : List (String × String)),
      mediaAttachmentInit H fsys fetched mp0 = some mp →
      ∀ k p, (k, p) ∈ mp →
        (k, p) ∈ mp0 ∨ (some p ∈ fetched ∧ ∃ c, fsys p = some c ∧ k = H c) := by
  intro fetched
  induction fetched with
  | nil =>
    intro mp0 mp heq k p hmem
    simp only [mediaAttachmentInit] at heq
    injection heq with h
    subst h
    exact Or.inl hmem
  | cons o rest ih =>
    intro mp0 mp heq k p hmem
    cases o with
    | none =>
      simp only [mediaAttachmentInit] at heq
      rcases ih mp0 mp heq k p hmem with h | h
      · exact Or.inl h
      · exact Or.inr ⟨List.mem_cons_of_mem _ h.1, h.2⟩
    | some path =>
      simp only [mediaAttachmentInit] at heq
      cases hf : fsys path with
      | none => rw [hf] at heq; cases heq
      | some c =>
        rw [hf] at heq
        rcases ih _ mp heq k p hmem with h | h
        · rcases dictInsert_mem h with h1 | h1
          · exact Or.inl h1
          · right
            have hk : k = sha256hexdigest H c := congrArg Prod.fst h1
            have hp : p = path := congrArg Prod.snd h1
            subst hp
            refine ⟨List.mem_cons_self _ _, c, hf, ?_⟩
            rw [hk]
            unfold sha256hexdigest
            rw [readChunks_join]
        · exact Or.inr ⟨List.mem_cons_of_mem _ h.1, h.2⟩

/-- Claim C6: when the `MediaAttachment` construction completes, every
entry of the `checksum → local_path` mapping pairs a fetched (non-`None`)
path of a file present in the media directory with the hash of that file's
bytes, streamed in 4096-byte blocks; failed downloads are absent. -/
theorem attachment_mapping_valid (H : List Nat → String) (fsys : String → Option (List Nat))
    (fetched : List (Option String)) (mp : List (String × String))
    (hinit : mediaAttachmentInit H fsys fetched [] = some mp)
    (k p : String) (hmem : (k, p) ∈ mp) :
    some p ∈ fetched ∧ ∃ content, fsys p = some content ∧ k = H content := by
  rcases mediaAttachmentInit_mem H fsys fetched [] mp hinit k p hmem with h | h
  · exact absurd h (List.not_mem_nil _)
  · exact h

/-- `attachment_mapping_valid` on a directory with one three-byte file. -/
theorem attachment_mapping_valid_witness :
    some "media/w.jpg" ∈ [some "media/w.jpg", none] ∧
      ∃ content, witnessFsys "media/w.jpg" = some content ∧ "h3" = witnessHash content :=
  attachment_mapping_valid witnessHash witnessFsys [some "media/w.jpg", none]
    [("h3", "media/w.jpg")] (by decide) "h3" "media/w.jpg" (by decide)

/-- `_post_attachments` appends exactly one upload event per attachment. -/
theorem postAttachments_events (date postId : String) (mp : List (String × Option String)) :
    ∀ (ledger : List (List String)) (events : List PubEvent),
      (postAttachments date postId ledger events mp).2
        = events ++ mp.map (fun kv => PubEvent.upload postId kv.1) := by
  induction mp with
  | nil => intro ledger events; simp [postAttachments]
  | cons kv rest ih =>
    intro ledger events
    have h := ih (log_post ledger postId "" (kv.2.getD "") kv.1 date)
      (events ++ [PubEvent.upload postId kv.1])
    simp only [postAttachments, List.foldl_cons] at h ⊢
    rw [h]
    simp

theorem publishedPromos_append (l1 l2 : List PubEvent) :
    publishedPromos (l1 ++ l2) = publishedPromos l1 ++ publishedPromos l2 := by
  simp [publishedPromos, List.filterMap_append]

theorem publishedPromos_uploads (postId : String) (mp : List (String × Option String)) :
    publishedPromos (mp.map (fun kv => PubEvent.upload postId kv.1)) = [] := by
  induction mp with
  | nil => rfl
  | cons kv rest ih => simpa [publishedPromos, List.filterMap_cons] using ih

/-- Claim C7, amended: on every successful publish the promo message is
`promoSelect` of the counter: it is the promo message exactly when the
counter had already reached `promo_every` (with `promo_every > 0`) before
the post, in which case the counter ends at 0 (`-1` then the success
increment); otherwise no promo is attached and the counter increments.
So with `promo_every = 3` the promo rides the 4th, 8th, ... successful
posts — the post after the counter reaches 3 — and `promo_every ≤ 0`
disables promos. -/
theorem promo_cadence (env : PublishEnv) (st : MPState) (post : Submission) (u : String)
    (h1 : duplicate_check st.ledger post.id = false)
    (h2 : duplicate_check st.ledger post.url = false)
    (h3 : skipAllDuplicates env st post = false)
    (h4 : mediaPolicyAllows env st post = true)
    (h5 : env.publishOutcome post = Except.ok u) :
    publishedPromos (processPost env st post).1.events
      = publishedPromos st.events
        ++ [(promoSelect env.promoEvery env.promoMessage st.numNonPromo).1] ∧
      (processPost env st post).1.numNonPromo
        = (promoSelect env.promoEvery env.promoMessage st.numNonPromo).2 + 1 ∧
      (0 < env.promoEvery → env.promoEvery ≤ st.numNonPromo →
        promoSelect env.promoEvery env.promoMessage st.numNonPromo
          = (some env.promoMessage, -1)) ∧
      (env.promoEvery ≤ 0 ∨ st.numNonPromo < env.promoEvery →
        promoSelect env.promoEvery env.promoMessage st.numNonPromo
          = (none, st.numNonPromo)) := by
  have hcond : ¬ ((duplicate_check st.ledger post.id
      || duplicate_check st.ledger post.url) = true) := by
    rw [h1, h2]; simp
  have hskip : ¬ (skipAllDuplicates env st post = true) := by rw [h3]; simp
  have hev : (processPost env st post).1.events
      = (if 0 < ((attachmentsAfterRemoval env st post).1).length
          then postAttachments env.date post.id st.ledger
            (st.events ++ [PubEvent.fetch post.id]) ((attachmentsAfterRemoval env st post).1)
          else (st.ledger, st.events ++ [PubEvent.fetch post.id])).2
        ++ [PubEvent.publish post.id
              (promoSelect env.promoEvery env.promoMessage st.numNonPromo).1,
            PubEvent.cleanup post.id] := by
    simp only [processPost, h5]
    rw [if_neg hcond, if_neg hskip, if_pos h4]
  have hn : (processPost env st post).1.numNonPromo
      = (promoSelect env.promoEvery env.promoMessage st.numNonPromo).2 + 1 := by
    simp only [processPost, h5]
    rw [if_neg hcond, if_neg hskip, if_pos h4]
  refine ⟨?_, hn, ?_, ?_⟩
  · rw [hev]
    by_cases hmp : 0 < ((attachmentsAfterRemoval env st post).1).length
    · rw [if_pos hmp, postAttachments_events, publishedPromos_append,
        publishedPromos_append, publishedPromos_uploads]
      simp [publishedPromos]
    · rw [if_neg hmp, publishedPromos_append]
      simp [publishedPromos]
  · intro hpos hle
    unfold promoSelect
    rw [if_pos ⟨hle, hpos⟩]
  · intro hor
    unfold promoSelect
    rw [if_neg ?_]
    rintro ⟨hge, hpos⟩
    rcases hor with h | h <;> omega

/-- `promo_cadence` on a fresh state (counter 0, `promo_every = 3`): the
publish carries no promo and the counter increments to 1. -/
theorem promo_cadence_witness :
    publishedPromos (processPost envC7 initState (mkSub "w1" "uw1")).1.events
      = publishedPromos initState.events
        ++ [(promoSelect envC7.promoEvery envC7.promoMessage initState.numNonPromo).1] :=
  (promo_cadence envC7 initState (mkSub "w1" "uw1") ("https://m.example/" ++ "w1")
    (by decide) (by decide) (by decide) (by decide) rfl).1

theorem publishCount_append (l1 l2 : List PubEvent) :
    publishCount (l1 ++ l2) = publishCount l1 + publishCount l2 := by
  simp [publishCount, List.countP_append]

theorem publishCount_uploads (postId : String) (mp : List (String × Option String)) :
    publishCount (mp.map (fun kv => PubEvent.upload postId kv.1)) = 0 := by
  induction mp with
  | nil => rfl
  | cons kv rest ih => simpa [publishCount, List.countP_cons, isPublishEvent] using ih

theorem publishCount_fetch (i : String) : publishCount [PubEvent.fetch i] = 0 := rfl

theorem publishCount_clean (i : String) : publishCount [PubEvent.cleanup i] = 0 := rfl

theorem publishCount_pubclean (i : String) (pr : Option String) :
    publishCount [PubEvent.publish i pr, PubEvent.cleanup i] = 1 := rfl

theorem publishCount_postAttachments (date postId : String) (ledger : List (List String))
    (events : List PubEvent) (mp : List (String × Option String)) :
    publishCount (postAttachments date postId ledger events mp).2 = publishCount events := by
  rw [postAttachments_events, publishCount_append, publishCount_uploads]
  omega

/-- One pass of `make_post`'s per-post body publishes at most once, and
publishes nothing at all when it does not stop the scan. -/
theorem processPost_publishCount (env : PublishEnv) (st : MPState) (post : Submission) :
    publishCount (processPost env st post).1.events ≤ publishCount st.events + 1 ∧
      ((processPost env st post).2 = false →
        publishCount (processPost env st post).1.events = publishCount st.events) := by
  by_cases hdup : (duplicate_check st.ledger post.id
      || duplicate_check st.ledger post.url) = true
  · constructor
    · simp only [processPost, if_pos hdup]
      exact Nat.le_succ _
    · intro _
      simp only [processPost, if_pos hdup]
  · by_cases hskip : skipAllDuplicates env st post = true
    · have hev : (processPost env st post).1.events = st.events ++ [PubEvent.fetch post.id] := by
        simp only [processPost]
        rw [if_neg hdup, if_pos hskip]
      have hc : publishCount (st.events ++ [PubEvent.fetch post.id]) = publishCount st.events := by
        simp [publishCount, List.countP_append, List.countP_cons, isPublishEvent]
      exact ⟨by rw [hev, hc]; exact Nat.le_succ _, fun _ => by rw [hev, hc]⟩
    · by_cases hpol : mediaPolicyAllows env st post = true
      · cases hout : env.publishOutcome post with
        | ok u =>
          have hev : (processPost env st post).1.events
              = (if 0 < ((attachmentsAfterRemoval env st post).1).length
                  then postAttachments env.date post.id st.ledger
                    (st.events ++ [PubEvent.fetch post.id])
                    ((attachmentsAfterRemoval env st post).1)
                  else (st.ledger, st.events ++ [PubEvent.fetch post.id])).2
                ++ [PubEvent.publish post.id
                      (promoSelect env.promoEvery env.promoMessage st.numNonPromo).1,
                    PubEvent.cleanup post.id] := by
            simp only [processPost, hout]
            rw [if_neg hdup, if_neg hskip, if_pos hpol]
          have hbrk : (processPost env st post).2 = true := by
            simp only [processPost, hout]
            rw [if_neg hdup, if_neg hskip, if_pos hpol]
          constructor
          · rw [hev]
            by_cases hmp : 0 < ((attachmentsAfterRemoval env st post).1).length
            · rw [if_pos hmp]
              simp only [publishCount_append, publishCount_postAttachments,
                publishCount_fetch, publishCount_pubclean]
              omega
            · rw [if_neg hmp]
              simp only [publishCount_append, publishCount_fetch, publishCount_pubclean]
              omega
          · intro hf
            rw [hbrk] at hf
            cases hf
        | error e =>
          have hev : (processPost env st post).1.events
              = (if 0 < ((attachmentsAfterRemoval env st post).1).length
                  then postAttachments env.date post.id st.ledger
                    (st.events ++ [PubEvent.fetch post.id])
                    ((attachmentsAfterRemoval env st post).1)
                  else (st.ledger, st.events ++ [PubEvent.fetch post.id])).2
                ++ [PubEvent.cleanup post.id] := by
            simp only [processPost, hout]
            rw [if_neg hdup, if_neg hskip, if_pos hpol]
          have hbrk : (processPost env st post).2 = true := by
            simp only [processPost, hout]
            rw [if_neg hdup, if_neg hskip, if_pos hpol]
          constructor
          · rw [hev]
            by_cases hmp : 0 < ((attachmentsAfterRemoval env st post).1).length
            · rw [if_pos hmp]
              simp only [publishCount_append, publishCount_postAttachments,
                publishCount_fetch, publishCount_clean]
              omega
            · rw [if_neg hmp]
              simp only [publishCount_append, publishCount_fetch, publishCount_clean]
              omega
          · intro hf
            rw [hbrk] at hf
            cases hf
      · have hev : (processPost env st post).1.events
            = (st.events ++ [PubEvent.fetch post.id]) ++ [PubEvent.cleanup post.id] := by
          simp only [processPost]
          rw [if_neg hdup, if_neg hskip, if_neg hpol]
        have hbrk : (processPost env st post).2 = true := by
          simp only [processPost]
          rw [if_neg hdup, if_neg hskip, if_neg hpol]
        constructor
        · rw [hev]
          simp only [publishCount_append, publishCount_fetch, publishCount_clean]
          omega
        · intro hf
          rw [hbrk] at hf
          cases hf

/-- The inner post loop publishes at most once, and exactly zero times when
it does not stop the scan. -/
theorem make_post_inner_publishCount (env : PublishEnv) :
    ∀ (posts : List Submission) (st : MPState),
      publishCount (make_post_inner env st posts).1.events ≤ publishCount st.events + 1 ∧
        ((make_post_inner env st posts).2 = false →
          publishCount (make_post_inner env st posts).1.events = publishCount st.events) := by
  intro posts
  induction posts with
  | nil =>
    intro st
    exact ⟨Nat.le_succ _, fun _ => rfl⟩
  | cons post rest ih =>
    intro st
    have hp := processPost_publishCount env st post
    simp only [make_post_inner]
    by_cases hb : (processPost env st post).2 = true
    · rw [if_pos hb]
      exact ⟨hp.1, fun hfalse => nomatch hfalse⟩
    · rw [if_neg hb]
      have hb2 : (processPost env st post).2 = false := by
        cases h2 : (processPost env st post).2
        · rfl
        · exact absurd h2 hb
      have heq := hp.2 hb2
      rcases ih (processPost env st post).1 with ⟨ih1, ih2⟩
      constructor
      · exact le_trans ih1 (by rw [heq])
      · intro hf
        rw [ih2 hf, heq]

/-- Claim C9, amended: in every `make_post` invocation at most one post is
published across all configured sources combined; the scan stops at the
first non-duplicate post that reaches the media-policy branch, but a
non-duplicate post whose attachments were all posted earlier is logged and
the scan continues (see `scan_continues_after_skipped_post`). -/
theorem make_post_at_most_one_publish (env : PublishEnv) (st : MPState)
    (groups : List (String × List Submission)) :
    publishCount (make_post env st groups).events ≤ publishCount st.events + 1 := by
  induction groups generalizing st with
  | nil => exact Nat.le_succ _
  | cons g rest ih =>
    obtain ⟨tags, ps⟩ := g
    simp only [make_post]
    rcases make_post_inner_publishCount env ps st with ⟨h1, h2⟩
    by_cases hb : (make_post_inner env st ps).2 = true
    · rw [if_pos hb]
      exact h1
    · rw [if_neg hb]
      have hb2 : (make_post_inner env st ps).2 = false := by
        cases h3 : (make_post_inner env st ps).2
        · rfl
        · exact absurd h3 hb
      have := ih (make_post_inner env st ps).1
      rw [h2 hb2] at this
      exact this

/-- The gallery download loop consumes eligible items in list order and
stops after filling the quota: with enough eligible items left it returns
the accumulator extended by the downloads of the first
`maxImages - acc.length` eligible items. -/
theorem galleryLoop_take (O : MediaOracle) (sd : String) (meta : String → MediaMeta)
    (mx : Nat) :
    ∀ (l : List GalleryItem) (acc : List (Option String)),
      acc.length < mx →
      mx - acc.length ≤ (l.filter (fun it => (meta it.mediaId).e == some "Image")).length →
      galleryLoop O sd meta mx l acc
        = acc ++ ((l.filter (fun it => (meta it.mediaId).e == some "Image")).take
              (mx - acc.length)).map
            (fun it => save_file O.dl (meta it.mediaId).sourceUrl
              (sd ++ "/" ++ it.mediaId ++ "." ++ mimeSubtype (meta it.mediaId).m)) := by
  intro l
  induction l with
  | nil =>
    intro acc hlt hle
    exfalso
    simp only [List.filter_nil, List.length_nil] at hle
    omega
  | cons item rest ih =>
    intro acc hlt hle
    by_cases helig : ((meta item.mediaId).e == some "Image") = true
    · have hfil : (item :: rest).filter (fun it => (meta it.mediaId).e == some "Image")
          = item :: rest.filter (fun it => (meta it.mediaId).e == some "Image") := by
        simp [List.filter_cons, helig]
      rw [hfil] at hle
      simp only [List.length_cons] at hle
      simp only [galleryLoop]
      rw [if_pos helig, hfil]
      by_cases hdone : acc.length + 1 = mx
      · rw [if_pos (by simp [List.length_append, hdone])]
        have h1 : mx - acc.length = 1 := by omega
        rw [h1]
        simp [List.take]
      · rw [if_neg (by simp only [List.length_append, List.length_cons, List.length_nil,
          beq_iff_eq]; omega)]
        rw [ih _ (by simp only [List.length_append, List.length_cons, List.length_nil]; omega)
          (by simp only [List.length_append, List.length_cons, List.length_nil]; omega)]
        have hsub : mx - acc.length = (mx - (acc ++ [save_file O.dl
            (meta item.mediaId).sourceUrl
            (sd ++ "/" ++ item.mediaId ++ "." ++ mimeSubtype (meta item.mediaId).m)]).length) + 1 := by
          simp only [List.length_append, List.length_cons, List.length_nil]
          omega
        rw [hsub, List.take_succ_cons, List.map_cons]
        simp
    · have hfil : (item :: rest).filter (fun it => (meta it.mediaId).e == some "Image")
          = rest.filter (fun it => (meta it.mediaId).e == some "Image") := by
        simp [List.filter_cons, helig]
      rw [hfil] at hle
      simp only [galleryLoop]
      rw [if_neg helig, hfil]
      exact ih acc hlt hle

/-- Claim C8, amended: a gallery post with 10 (or more) eligible image
items and `max_images = 4` yields exactly 4 downloaded assets — the first
4 eligible items in the order of the gallery items sorted by their numeric
`id` field (the code's `sorted(..., key=lambda x: x['id'])`), not by
`media_id`. -/
theorem gallery_first_four_by_item_id (O : MediaOracle) (sd : String)
    (items : List GalleryItem) (meta : String → MediaMeta)
    (h : 10 ≤ ((sortById items).filter (fun it => (meta it.mediaId).e == some "Image")).length) :
    get_reddit_gallery O sd items meta 4
      = (((sortById items).filter (fun it => (meta it.mediaId).e == some "Image")).take 4).map
          (fun it => save_file O.dl (meta it.mediaId).sourceUrl
            (sd ++ "/" ++ it.mediaId ++ "." ++ mimeSubtype (meta it.mediaId).m)) ∧
      (get_reddit_gallery O sd items meta 4).length = 4 := by
  have key := galleryLoop_take O sd meta 4 (sortById items) []
    (by simp) (by simp only [List.length_nil, Nat.sub_zero]; omega)
  simp only [List.length_nil, Nat.sub_zero, List.nil_append] at key
  constructor
  · rw [get_reddit_gallery]
    exact key
  · rw [get_reddit_gallery, key]
    simp only [List.length_map, List.length_take]
    omega

/-- `gallery_first_four_by_item_id` on ten eligible JPEG items. -/
theorem gallery_first_four_by_item_id_witness :
    (get_reddit_gallery allOkOracle "media" c8items c8meta 4).length = 4 :=
  (gallery_first_four_by_item_id allOkOracle "media" c8items c8meta (by decide)).2

/-- Claim C8, counterexample: ten eligible items whose `media_id` order
("a" < ... < "j") is the reverse of their `id` order.  The fetch downloads
the first four in `id` order (media ids j, i, h, g), which differs from
the first four in media_id-sorted order (a, b, c, d) the claim promises. -/
theorem gallery_order_counterexample :
    (get_reddit_gallery allOkOracle "media" c8items c8meta 4).length = 4 ∧
      get_reddit_gallery allOkOracle "media" c8items c8meta 4
        ≠ specGalleryMediaIdOrder allOkOracle "media" c8items c8meta 4 := by decide

/-- `make_post_at_most_one_publish` on the two-post cycle of the
counterexample state. -/
theorem make_post_at_most_one_publish_witness :
    publishCount (make_post envC9 c9state c9posts).events
      ≤ publishCount c9state.events + 1 :=
  make_post_at_most_one_publish envC9 c9state c9posts

end Twetter
